import Mathlib

/-!
Verification development for the ConvoPeq convolution DSP core
(src/src/ConvolverProcessor.{h,cpp}, src/src/AudioEngine.cpp).

Shallow embedding conventions:
* `double`/`float` sample values and parameters are embedded as `ℚ`
  (exact literals for the source's numeric constants); the trigonometric
  dry/wet gains of the mix stage are embedded over `ℝ` with `Real.sin` /
  `Real.cos`.
* JUCE `AudioBuffer` data is a `List (List ℚ)` (channels, then samples);
  the single-channel views used by per-channel loops are `List ℚ`.
* External library DSP cores that are not part of this repository
  (the r8brain resampler `CDSPResampler.h`, the FFT chain behind
  `audiofft::AudioFFT`, `fftconvolver::FFTConvolver`, and
  `juce::dsp::DelayLine`) are abstracted as explicit data parameters;
  every control-flow decision the repository's own code makes around them
  is embedded faithfully.
-/

namespace ConvoPeq

/-! ## Constants (ConvolverProcessor.h lines 46-67) -/

def MIX_MIN : ℚ := 0
def MIX_MAX : ℚ := 1
def SMOOTHING_TIME_MIN_SEC : ℚ := 1/100
def SMOOTHING_TIME_MAX_SEC : ℚ := 1/2
def SMOOTHING_TIME_DEFAULT_SEC : ℚ := 1/20
def IR_LENGTH_MIN_SEC : ℚ := 1/2
def IR_LENGTH_MAX_SEC : ℚ := 3
def IR_LENGTH_DEFAULT_SEC : ℚ := 1
def MAX_IR_LATENCY : ℤ := 2097152
def MAX_BLOCK_SIZE : ℕ := 524288
def MAX_TOTAL_DELAY : ℕ := 2097152 + 524288
def CONVOLUTION_HEADROOM_GAIN : ℚ := 1/2

/-! ## Parameter setters (ConvolverProcessor.cpp lines 1086-1145)

The three clamped parameter setters `setMix`, `setTargetIRLength` and
`setSmoothingTime` each clamp with `juce::jlimit` and store only when the
clamped value differs from the stored one by more than `1.0e-5`. -/

/-- Behaviour of `juce::jlimit(lower, upper, value)`: clamp `value` into
`[lower, upper]` (returning `lower` when `value < lower`, `upper` when
`upper < value`). -/
def jlimit (lower upper v : ℚ) : ℚ :=
  if v < lower then lower else if upper < v then upper else v

/-- The three atomically stored clamped parameters of `ConvolverProcessor`
(header lines 232-236) with their in-class initializers. -/
structure Params where
  mixTarget : ℚ
  targetIRLengthSec : ℚ
  smoothingTimeSec : ℚ
deriving DecidableEq, Repr

/-- Initial parameter values: `mixTarget{1.0f}`,
`targetIRLengthSec{IR_LENGTH_DEFAULT_SEC}`,
`smoothingTimeSec{SMOOTHING_TIME_DEFAULT_SEC}`. -/
def Params.initial : Params :=
  { mixTarget := 1
    targetIRLengthSec := IR_LENGTH_DEFAULT_SEC
    smoothingTimeSec := SMOOTHING_TIME_DEFAULT_SEC }

/-- `ConvolverProcessor::setMix` (cpp lines 1086-1095): clamp to
`[0.0, 1.0]`, store when the change exceeds `1.0e-5`. -/
def setMix (p : Params) (mixAmount : ℚ) : Params :=
  let newVal := jlimit 0 1 mixAmount
  if |p.mixTarget - newVal| > 1/100000 then { p with mixTarget := newVal } else p

/-- `ConvolverProcessor::setTargetIRLength` (cpp lines 1111-1125): clamp to
`[IR_LENGTH_MIN_SEC, IR_LENGTH_MAX_SEC]`, store when the change exceeds
`1e-5` (the triggered rebuild does not touch the parameter itself). -/
def setTargetIRLength (p : Params) (timeSec : ℚ) : Params :=
  let clampedTime := jlimit IR_LENGTH_MIN_SEC IR_LENGTH_MAX_SEC timeSec
  if |p.targetIRLengthSec - clampedTime| > 1/100000 then
    { p with targetIRLengthSec := clampedTime } else p

/-- `ConvolverProcessor::setSmoothingTime` (cpp lines 1127-1135): clamp to
`[SMOOTHING_TIME_MIN_SEC, SMOOTHING_TIME_MAX_SEC]`, store when the change
exceeds `1e-5`. -/
def setSmoothingTime (p : Params) (timeSec : ℚ) : Params :=
  let clampedTime := jlimit SMOOTHING_TIME_MIN_SEC SMOOTHING_TIME_MAX_SEC timeSec
  if |p.smoothingTimeSec - clampedTime| > 1/100000 then
    { p with smoothingTimeSec := clampedTime } else p

/-- One call to one of the three clamped setters. -/
inductive SetterCall where
  | mix (v : ℚ)
  | irLength (v : ℚ)
  | smoothing (v : ℚ)
deriving DecidableEq, Repr

/-- Dispatch one setter call. -/
def applySetter (p : Params) : SetterCall → Params
  | .mix v => setMix p v
  | .irLength v => setTargetIRLength p v
  | .smoothing v => setSmoothingTime p v

/-- Run a sequence of setter calls. -/
def applySetters (p : Params) (calls : List SetterCall) : Params :=
  calls.foldl applySetter p

/-- All three stored parameters lie in their documented ranges. -/
def Params.inRange (p : Params) : Prop :=
  MIX_MIN ≤ p.mixTarget ∧ p.mixTarget ≤ MIX_MAX ∧
  IR_LENGTH_MIN_SEC ≤ p.targetIRLengthSec ∧ p.targetIRLengthSec ≤ IR_LENGTH_MAX_SEC ∧
  SMOOTHING_TIME_MIN_SEC ≤ p.smoothingTimeSec ∧ p.smoothingTimeSec ≤ SMOOTHING_TIME_MAX_SEC

instance (p : Params) : Decidable p.inRange := by
  unfold Params.inRange; infer_instance

lemma jlimit_ge (lower upper v : ℚ) (h : lower ≤ upper) : lower ≤ jlimit lower upper v := by
  unfold jlimit
  split
  · exact le_refl lower
  · split
    · exact h
    · linarith

lemma jlimit_le (lower upper v : ℚ) (h : lower ≤ upper) : jlimit lower upper v ≤ upper := by
  unfold jlimit
  split
  · exact h
  · split
    · exact le_refl upper
    · linarith

lemma applySetter_inRange (p : Params) (c : SetterCall) (h : p.inRange) :
    (applySetter p c).inRange := by
  obtain ⟨h1, h2, h3, h4, h5, h6⟩ := h
  cases c with
  | mix v =>
    simp only [applySetter, setMix]
    split
    · refine ⟨jlimit_ge 0 1 v (by norm_num), jlimit_le 0 1 v (by norm_num), h3, h4, h5, h6⟩
    · exact ⟨h1, h2, h3, h4, h5, h6⟩
  | irLength v =>
    simp only [applySetter, setTargetIRLength]
    split
    · exact ⟨h1, h2,
        jlimit_ge IR_LENGTH_MIN_SEC IR_LENGTH_MAX_SEC v (by norm_num [IR_LENGTH_MIN_SEC, IR_LENGTH_MAX_SEC]),
        jlimit_le IR_LENGTH_MIN_SEC IR_LENGTH_MAX_SEC v (by norm_num [IR_LENGTH_MIN_SEC, IR_LENGTH_MAX_SEC]),
        h5, h6⟩
    · exact ⟨h1, h2, h3, h4, h5, h6⟩
  | smoothing v =>
    simp only [applySetter, setSmoothingTime]
    split
    · exact ⟨h1, h2, h3, h4,
        jlimit_ge SMOOTHING_TIME_MIN_SEC SMOOTHING_TIME_MAX_SEC v
          (by norm_num [SMOOTHING_TIME_MIN_SEC, SMOOTHING_TIME_MAX_SEC]),
        jlimit_le SMOOTHING_TIME_MIN_SEC SMOOTHING_TIME_MAX_SEC v
          (by norm_num [SMOOTHING_TIME_MIN_SEC, SMOOTHING_TIME_MAX_SEC])⟩
    · exact ⟨h1, h2, h3, h4, h5, h6⟩

/-! ## Liftering step of the minimum-phase transform
(convertToMinimumPhase, ConvolverProcessor.cpp lines 529-539)

The two loops
`for (i = 1; i < fftSize / 2; ++i) data[i] *= 2.0;` and
`for (i = fftSize / 2 + 1; i < fftSize; ++i) data[i] = 0.0;`
touch disjoint index ranges of the cepstrum array, so the result is the
index-wise function below. -/

/-- Causal window ("liftering") applied by `convertToMinimumPhase` to the
real cepstrum `c` of transform size `fftSize`. -/
def lifteredCepstrum (fftSize : ℕ) (c : ℕ → ℚ) : ℕ → ℚ := fun i =>
  if 1 ≤ i ∧ i < fftSize / 2 then c i * 2
  else if fftSize / 2 + 1 ≤ i ∧ i < fftSize then 0
  else c i

/-! ## Target IR length, trimming and fade
(ConvolverProcessor.cpp lines 230-243 and 682-692) -/

/-- C-style `static_cast<int>` on a real quantity: truncation toward zero. -/
def cTrunc (q : ℚ) : ℤ := if 0 ≤ q then ⌊q⌋ else ⌈q⌉

/-- `ConvolverProcessor::computeTargetIRLength` (cpp lines 682-692):
`target = (int)(sampleRate * targetIRLengthSec)` capped at
`kMaxIRCap = MAX_IR_LATENCY`; the `originalLength` argument is ignored. -/
def computeTargetIRLength (sampleRate targetIRTimeSec : ℚ) : ℤ :=
  min (cTrunc (sampleRate * targetIRTimeSec)) MAX_IR_LATENCY

/-- Gain of the `k`-th sample of `juce::AudioBuffer::applyGainRamp(start,
fade, 1.0, 0.0)`: the gain starts at `1` and decreases by `1/fade` per
sample. -/
def fadeGain (fade k : ℕ) : ℚ := 1 - (k : ℚ) / (fade : ℚ)

/-- Trimming of one channel to `targetLength` samples
(LoaderThread::run, cpp lines 230-243): the cleared `trimmed` buffer
receives `copySamples = min(targetLength, loaded.length)` copied samples,
and when `copySamples > 256` the final 256 copied samples are faded out
with `applyGainRamp`. -/
def trimChannel (loaded : List ℚ) (targetLength : ℕ) : List ℚ :=
  let copySamples := min targetLength loaded.length
  let fade := 256
  (List.range targetLength).map (fun i =>
    let base := if i < copySamples then loaded.getD i 0 else 0
    if copySamples > fade ∧ copySamples - fade ≤ i ∧ i < copySamples then
      base * fadeGain fade (i - (copySamples - fade))
    else base)

/-! ## Deferred reclamation queue
(AudioEngine::timerCallback, AudioEngine.cpp lines 349-378, and the
convolver-local bin in ConvolverProcessor::applyNewState, cpp lines
654-667) -/

/-- An entry of a reclamation queue: an identity for the superseded
state object plus the reference count observed during the sweep
(`getReferenceCount()` for `DSPCore::Ptr`, `use_count()` for the
`shared_ptr<StereoConvolver>`). -/
structure RCEntry where
  stateId : ℕ
  rc : ℕ
deriving DecidableEq, Repr

/-- The two guarded vectors of `AudioEngine` (`trashBin` and
`trashBinPending`, double buffering). -/
structure TrashState where
  trashBin : List RCEntry
  trashBinPending : List RCEntry
deriving DecidableEq, Repr

/-- Result of one `AudioEngine::timerCallback` sweep: the list of entries
moved to `toDelete` and destroyed after the lock is released, the new
queue state, and whether the over-20 diagnostic fired. -/
structure SweepResult where
  freed : List RCEntry
  after : TrashState
  diagnostic : Bool
deriving DecidableEq, Repr

/-- `AudioEngine::timerCallback` (cpp lines 349-378): `std::remove_if`
moves every `trashBin` entry with reference count 1 into `toDelete`
(order of survivors preserved), `trashBinPending` is appended to the
surviving `trashBin`, and the diagnostic fires when the merged queue
holds more than 20 entries. `toDelete` is destroyed outside the lock. -/
def timerSweep (s : TrashState) : SweepResult :=
  let toDelete := s.trashBin.filter (fun e => e.rc = 1)
  let survivors := s.trashBin.filter (fun e => ¬ (e.rc = 1))
  let merged := survivors ++ s.trashBinPending
  { freed := toDelete
    after := { trashBin := merged, trashBinPending := [] }
    diagnostic := decide (merged.length > 20) }

/-- Convolver-local bin maintenance in `ConvolverProcessor::applyNewState`
(cpp lines 654-667): the superseded `StereoConvolver` is pushed onto the
bin, then every entry whose `use_count()` is 1 is erased (freed). -/
def convolverBinAfterPublish (trashBin : List RCEntry) (oldConv : RCEntry) :
    List RCEntry × List RCEntry :=
  let pushed := trashBin ++ [oldConv]
  (pushed.filter (fun e => ¬ (e.rc = 1)), pushed.filter (fun e => e.rc = 1))

/-! ## Buffer helpers (juce::AudioBuffer views)

A buffer is a list of channels; all channels of one buffer have the same
sample count in every use below. -/

/-- Number of samples of a buffer (`getNumSamples()`); the channels of a
buffer all share one length, read off the first channel. -/
def bufNumSamples (buf : List (List ℚ)) : ℕ := (buf.headD []).length

/-- Peak absolute value of one channel
(`juce::AudioBuffer::getMagnitude(ch, 0, n)`), `0` for an empty range. -/
def channelMagnitude (ch : List ℚ) : ℚ := ch.foldl (fun m x => max m |x|) 0

/-- Peak absolute value over all channels, the
`maxMagnitude = max over channels of getMagnitude(...)` loop of
LoaderThread::run (cpp lines 220-222). -/
def bufMagnitude (buf : List (List ℚ)) : ℚ :=
  buf.foldl (fun m ch => max m (channelMagnitude ch)) 0

/-! ## IR ingestion pipeline (ConvolverProcessor::LoaderThread::run,
cpp lines 104-336, and loadImpulseResponse, cpp lines 578-622) -/

/-- What the loader can observe about a source file through
`juce::AudioFormatManager` / `juce::AudioFormatReader`: whether the file
exists, whether a decoder (reader) could be created for it, the declared
`lengthInSamples`, the decoded channel data and the native sample rate. -/
structure SourceFile where
  existsAsFile : Bool
  hasDecoder : Bool
  lengthInSamples : ℕ
  samples : List (List ℚ)
  sampleRate : ℚ
deriving DecidableEq, Repr

/-- Upper bound on the decoded file length
(`MAX_FILE_LENGTH = 2147483647`, cpp line 154). -/
def MAX_FILE_LENGTH : ℕ := 2147483647

/-- Acquisition stage of `LoaderThread::run` (cpp lines 135-176): a
rebuild copies the cached asset, a new-file load decodes the file; both
abort (return without publishing) on a nonexistent file, a missing
decoder, an over-long file, or zero decoded samples. -/
def loaderAcquire (isRebuild : Bool) (cachedIR : List (List ℚ)) (cachedSR : ℚ)
    (f : SourceFile) : Option (List (List ℚ) × ℚ) :=
  if isRebuild then
    if bufNumSamples cachedIR = 0 then none else some (cachedIR, cachedSR)
  else
    if f.existsAsFile = false then none
    else if f.hasDecoder = false then none
    else if f.lengthInSamples > MAX_FILE_LENGTH then none
    else if f.lengthInSamples = 0 then none
    else some (f.samples, f.sampleRate)

/-- Resampling stage (cpp lines 180-187): when both rates are positive
and differ by more than 1 Hz the buffer is replaced by the r8brain
resampler output (abstracted here as the explicit `resampled` argument)
and the rate becomes the target rate; an empty resampler result means the
worker was cancelled and the load aborts. Otherwise the buffer passes
through untouched. -/
def resampleStage (loadedIR : List (List ℚ)) (loadedSR sampleRate : ℚ)
    (resampled : List (List ℚ)) : Option (List (List ℚ) × ℚ) :=
  if 0 < loadedSR ∧ 0 < sampleRate ∧ 1 < |loadedSR - sampleRate| then
    if bufNumSamples resampled = 0 then none else some (resampled, sampleRate)
  else some (loadedIR, loadedSR)

/-- Trailing-silence threshold of the trim stage
(`threshold = 1.0e-15`, cpp line 195). -/
def SILENCE_TRIM_THRESHOLD : ℚ := 1/1000000000000000

/-- Whether sample index `i` is silent in every channel (no channel's
sample exceeds the threshold in absolute value, cpp lines 199-207). -/
def silentAt (buf : List (List ℚ)) (i : ℕ) : Bool :=
  buf.all (fun ch => ¬ (SILENCE_TRIM_THRESHOLD < |ch.getD i 0|))

/-- The `while (newLength > 0)` loop of the silence trim (cpp lines
197-210): decrement `newLength` while the last sample is silent in every
channel. -/
def trimLenAux : ℕ → (ℕ → Bool) → ℕ
  | 0, _ => 0
  | n + 1, silent => if silent n then trimLenAux n silent else n + 1

/-- Trailing-silence trim stage (cpp lines 191-214): when the loop
shortened the buffer, `setSize(channels, max(1, newLength), true)` keeps
the leading `max 1 newLength` samples of every channel. -/
def silenceTrimStage (buf : List (List ℚ)) : List (List ℚ) :=
  let len := bufNumSamples buf
  let newLength := trimLenAux len (silentAt buf)
  if newLength < len then buf.map (fun ch => ch.take (max 1 newLength)) else buf

/-- Peak-normalization stage (cpp lines 218-226), new-file path only:
when the overall peak is positive every sample is scaled by
`1.0 / maxMagnitude`; a rebuild skips the stage. -/
def normalizeStage (isRebuild : Bool) (buf : List (List ℚ)) : List (List ℚ) :=
  if isRebuild then buf
  else
    let maxMag := bufMagnitude buf
    if 0 < maxMag then buf.map (fun ch => ch.map (fun x => x * (1 / maxMag))) else buf

/-- Smallest power of two that is at least `n`
(`juce::nextPowerOfTwo`, which returns 1 for `n ≤ 1`). -/
def nextPow2 (n : ℕ) : ℕ := 2 ^ Nat.clog 2 n

/-- Cap on the minimum-phase transform size
(`MAX_MINPHASE_FFT_SIZE = 2097152`, cpp line 476). -/
def MAX_MINPHASE_FFT_SIZE : ℕ := 2097152

/-- Result of `convertToMinimumPhase`: the cancellation flag written
through `wasCancelled` plus the returned buffer. -/
structure MinPhaseResult where
  wasCancelled : Bool
  buffer : List (List ℚ)
deriving DecidableEq, Repr

/-- Control flow of `convertToMinimumPhase` (cpp lines 467-573): the
transform size is `nextPowerOfTwo(numSamples * 4)`; exceeding the cap
returns an empty buffer with `wasCancelled = false`; a cancellation
request observed at any of the in-loop checks returns an empty buffer
with `wasCancelled = true`; otherwise the cepstral FFT chain (externally
implemented by `audiofft::AudioFFT`, abstracted as the explicit `core`
argument) produces a buffer of the input's shape. -/
def convertToMinimumPhaseCtl (linearIR : List (List ℚ)) (cancelSignal : Bool)
    (core : List (List ℚ)) : MinPhaseResult :=
  let numSamples := bufNumSamples linearIR
  let fftSize := nextPow2 (numSamples * 4)
  if fftSize > MAX_MINPHASE_FFT_SIZE then ⟨false, []⟩
  else if cancelSignal then ⟨true, []⟩
  else ⟨false, core⟩

/-- Minimum-phase step of `LoaderThread::run` (cpp lines 247-261): with
minimum-phase mode off the trimmed kernel passes through; with it on, a
cancelled transform aborts the whole load (`return`, nothing published),
and the transformed buffer replaces the trimmed kernel only when it is
non-empty and channel 0's peak magnitude exceeds `1.0e-5`. -/
def loaderMinPhaseStage (useMinPhase : Bool) (trimmed : List (List ℚ))
    (cancelSignal : Bool) (mpCore : List (List ℚ)) : Option (List (List ℚ)) :=
  if useMinPhase then
    let r := convertToMinimumPhaseCtl trimmed cancelSignal mpCore
    if r.wasCancelled then none
    else if 0 < bufNumSamples r.buffer ∧ 1/100000 < channelMagnitude (r.buffer.headD []) then
      some r.buffer
    else some trimmed
  else some trimmed

/-- One channel of the peak-position scan (cpp lines 272-284): walk the
samples carrying `(maxMag, irPeakLatency)`, updating on a strictly larger
absolute value. -/
def scanChannel : List ℚ → ℕ → ℚ × ℕ → ℚ × ℕ
  | [], _, acc => acc
  | x :: xs, i, acc => scanChannel xs (i + 1) (if |x| > acc.1 then (|x|, i) else acc)

/-- Peak-position scan over all channels (cpp lines 267-285), starting
from `maxMag = -1.0`, `irPeakLatency = 0`. -/
def peakScan (channels : List (List ℚ)) : ℚ × ℕ :=
  channels.foldl (fun acc ch => scanChannel ch 0 acc) (-1, 0)

/-- Latency recording of `LoaderThread::run` (cpp lines 267-285):
`irPeakLatency` stays `0` unless minimum-phase mode is off, in which case
it is the index found by the peak scan over the final kernel. -/
def loaderLatencyStage (useMinPhase : Bool) (kernelBuf : List (List ℚ)) : ℕ :=
  if useMinPhase then 0 else (peakScan kernelBuf).2

/-- Everything `applyNewState` receives from a completed load: the kernel
handed to the `StereoConvolver` (with its block latency and IR peak
latency), the target length, and the post-resample/trim/normalize buffer
and rate retained as the raw asset. -/
structure PublishedState where
  kernel : List (List ℚ)
  irLatency : ℕ
  latency : ℕ
  targetLength : ℤ
  loadedIR : List (List ℚ)
  loadedSR : ℚ
  isRebuild : Bool
deriving DecidableEq, Repr

/-- Complete control flow of `LoaderThread::run` (cpp lines 104-336):
acquire, resample, silence-trim, normalize, trim/fade to the target
length, optional minimum-phase transform, peak-latency recording, and
the hand-off to `applyNewState`. `none` means the load aborted without
publishing. The two external DSP cores (r8brain resampler, cepstral FFT
chain) are the explicit `resampled` / `mpCore` arguments. -/
def loaderRun (isRebuild : Bool) (cachedIR : List (List ℚ)) (cachedSR : ℚ)
    (f : SourceFile) (sampleRate : ℚ) (blockSize : ℕ) (useMinPhase : Bool)
    (targetIRLengthSec : ℚ) (resampled : List (List ℚ))
    (cancelSignal : Bool) (mpCore : List (List ℚ)) : Option PublishedState :=
  match loaderAcquire isRebuild cachedIR cachedSR f with
  | none => none
  | some (ir0, sr0) =>
    match resampleStage ir0 sr0 sampleRate resampled with
    | none => none
    | some (ir1, sr1) =>
      match loaderMinPhaseStage useMinPhase
          ((normalizeStage isRebuild (silenceTrimStage ir1)).map
            (fun ch => trimChannel ch
              (computeTargetIRLength sampleRate targetIRLengthSec).toNat))
          cancelSignal mpCore with
      | none => none
      | some kern =>
        -- threadShouldExit() is re-read at cpp lines 263 and 311: an active
        -- cancel signal aborts the publish on every path.
        if cancelSignal then none else
        some { kernel := kern
               irLatency := loaderLatencyStage useMinPhase kern
               latency := blockSize
               targetLength := computeTargetIRLength sampleRate targetIRLengthSec
               loadedIR := normalizeStage isRebuild (silenceTrimStage ir1)
               loadedSR := sr1
               isRebuild := isRebuild }

/-- Controller-side state touched by `loadImpulseResponse` and
`applyNewState`: the retained raw asset, the published IR length shown by
`getIRLength()`, and the `isRebuilding` guard flag. -/
structure CtlState where
  originalIR : List (List ℚ)
  originalIRSampleRate : ℚ
  irLength : ℤ
  isRebuilding : Bool
deriving DecidableEq, Repr

/-- Synchronous part of `ConvolverProcessor::loadImpulseResponse`
(cpp lines 578-622): the boolean handed back to the caller. A rebuild
request (empty `juce::File`, modelled as `none`) returns `true` at once
when a rebuild is already running, `false` when there is no cached asset,
and otherwise starts the worker and returns `true`; a new-file request
returns `false` only for a nonexistent file, otherwise it starts the
worker and returns `true`. -/
def loadImpulseResponse (st : CtlState) (req : Option SourceFile) : Bool :=
  match req with
  | none =>
    if st.isRebuilding then true
    else if bufNumSamples st.originalIR = 0 ∨ st.originalIRSampleRate ≤ 0 then false
    else true
  | some f => if f.existsAsFile = false then false else true

/-- `ConvolverProcessor::applyNewState` (cpp lines 628-676) restricted to
the controller state: a new-file load overwrites the retained raw asset
with the loader's post-resample buffer and rate, every publish updates
`irLength` to the target length and clears the rebuild flag. -/
def applyNewState (st : CtlState) (pub : PublishedState) : CtlState :=
  { originalIR := if pub.isRebuild then st.originalIR else pub.loadedIR
    originalIRSampleRate := if pub.isRebuild then st.originalIRSampleRate else pub.loadedSR
    irLength := pub.targetLength
    isRebuilding := false }

/-- End-to-end effect of one load on the controller state and the active
(RCU-published) convolution state: `applyNewState` runs only when the
worker completed and published; an aborted load leaves both untouched. -/
def processorAfterLoad (st : CtlState) (active : Option PublishedState)
    (isRebuild : Bool) (f : SourceFile) (sampleRate : ℚ) (blockSize : ℕ)
    (useMinPhase : Bool) (targetIRLengthSec : ℚ) (resampled : List (List ℚ))
    (cancelSignal : Bool) (mpCore : List (List ℚ)) :
    CtlState × Option PublishedState :=
  match loaderRun isRebuild st.originalIR st.originalIRSampleRate f sampleRate
      blockSize useMinPhase targetIRLengthSec resampled cancelSignal mpCore with
  | none => (st, active)
  | some pub => (applyNewState st pub, some pub)

/-! ## Real-time process and mix engine
(ConvolverProcessor::process, cpp lines 927-1081)

The per-sample mix arithmetic runs on `double`, embedded over `ℝ`; the
parameter comparisons of the branch structure are on the stored
parameter values, embedded over `ℚ`. The external per-channel signal
producers (`juce::dsp::DelayLine` for the dry path,
`fftconvolver::FFTConvolver` for the wet path) are abstracted as the
explicit `delayOut` / `convOut` signal arguments; every branch the
repository's own code takes around them is embedded. -/

/-- The published `StereoConvolver` fields `process` reads: the
block-processing latency set by `init` and the IR peak latency. -/
structure StereoConvolverInfo where
  latency : ℕ
  irLatency : ℕ
deriving DecidableEq, Repr

/-- Processor-side state read by `process`: the readiness and bypass
flags, the active convolver (the RCU slot), and the pre-allocated sizes
of `dryBuffer` and `convolutionBuffer` fixed by `prepareToPlay`. -/
structure ProcEnv where
  isPrepared : Bool
  bypassed : Bool
  conv : Option StereoConvolverInfo
  dryBufferLen : ℕ
  convBufferLen : ℕ
deriving DecidableEq, Repr

/-- A `juce::dsp::AudioBlock<double>`: channel count, sample count, and
the in-place channel data. -/
structure AudioBlock where
  numChannels : ℕ
  numSamples : ℕ
  sample : ℕ → ℕ → ℝ

/-- Mix stage of `process` (cpp lines 983-1080) for one channel:
`needsConvolution` and `needsDrySignal` select the 100%-dry memcpy, the
100%-wet copy, or the equal-power blend, which interpolates per sample
through the smoother while it ramps and otherwise uses one constant gain
pair computed from the target mix value. The `-6 dB` headroom gain is
applied to the convolution buffer only when `needsConvolution` holds. -/
noncomputable def mixStage (mixTarget : ℚ) (smoothing : Bool) (smoothVal : ℕ → ℝ)
    (convOut dryOut : ℕ → ℝ) (i : ℕ) : ℝ :=
  let needsConvolution : Bool := smoothing || decide ((1 : ℚ)/1000 < mixTarget)
  let needsDrySignal : Bool := smoothing || decide (mixTarget < 999/1000)
  let wet : ℕ → ℝ := fun j =>
    if needsConvolution then convOut j * ((1 : ℝ)/2) else convOut j
  if needsConvolution = false then dryOut i
  else if needsDrySignal = false then wet i
  else if smoothing then
    wet i * Real.sin (smoothVal i * (Real.pi / 2)) +
      dryOut i * Real.cos (smoothVal i * (Real.pi / 2))
  else
    wet i * Real.sin ((mixTarget : ℝ) * (Real.pi / 2)) +
      dryOut i * Real.cos ((mixTarget : ℝ) * (Real.pi / 2))

/-- `ConvolverProcessor::process` (cpp lines 927-1081). Step 1 loads the
RCU slot and, when a convolver is present, computes the dry-path delay
`min(latency + irLatency, MAX_TOTAL_DELAY)` (returned as the first
component; `none` means `setDelay` was not called). Step 2 returns
untouched when unprepared, bypassed, or without a kernel. Step 3 returns
untouched when the sample count is zero or exceeds either pre-allocated
buffer, or when there are no channels. Otherwise the mix stage overwrites
the first `min(numChannels, 2)` channels in place. -/
noncomputable def process (env : ProcEnv) (mixTarget : ℚ) (smoothing : Bool)
    (smoothVal : ℕ → ℝ) (delayOut convOut : ℕ → ℕ → ℝ) (block : AudioBlock) :
    Option ℕ × AudioBlock :=
  let delaySet : Option ℕ :=
    env.conv.map (fun c => min (c.latency + c.irLatency) MAX_TOTAL_DELAY)
  if env.isPrepared = false || env.bypassed || env.conv.isNone then
    (delaySet, block)
  else
    let procChannels := min block.numChannels 2
    let numSamples := block.numSamples
    if numSamples = 0 || procChannels = 0 || numSamples > env.dryBufferLen ||
        numSamples > env.convBufferLen then
      (delaySet, block)
    else
      (delaySet,
        { block with
          sample := fun ch i =>
            if ch < procChannels ∧ i < numSamples then
              mixStage mixTarget smoothing smoothVal (convOut ch) (delayOut ch) i
            else block.sample ch i })

/-! ## Theorems -/

lemma applySetters_inRange (calls : List SetterCall) (p : Params) (h : p.inRange) :
    (applySetters p calls).inRange := by
  induction calls generalizing p with
  | nil => exact h
  | cons c cs ih => exact ih (applySetter p c) (applySetter_inRange p c h)

lemma initial_params_inRange : Params.initial.inRange := by
  simp [Params.inRange, Params.initial, MIX_MIN, MIX_MAX, IR_LENGTH_MIN_SEC,
    IR_LENGTH_MAX_SEC, IR_LENGTH_DEFAULT_SEC, SMOOTHING_TIME_MIN_SEC,
    SMOOTHING_TIME_MAX_SEC, SMOOTHING_TIME_DEFAULT_SEC]
  norm_num

/-- C10: every public parameter setter clamps its argument into its fixed
range before storing it (`setMix` to `[0, 1]`, `setSmoothingTime` to
`[0.01, 0.5]` s, `setTargetIRLength` to `[0.5, 3]` s), so from any
in-range state — the in-class initial values in particular — no sequence
of setter calls can drive any of the three getters out of range. -/
theorem param_setters_clamp_spec (p : Params) (calls : List SetterCall)
    (h : p.inRange) :
    (applySetters p calls).inRange ∧ Params.initial.inRange :=
  ⟨applySetters_inRange calls p h, initial_params_inRange⟩

/-- Witness for C10: out-of-range arguments (mix 5, IR length −7 s,
smoothing 100 s) leave the parameters in range. -/
theorem param_setters_clamp_witness :
    Params.initial.inRange ∧
    (applySetters Params.initial
        [.mix 5, .irLength (-7), .smoothing 100]).inRange :=
  ⟨initial_params_inRange,
   (param_setters_clamp_spec Params.initial
      [.mix 5, .irLength (-7), .smoothing 100] initial_params_inRange).1⟩

/-- C7: the liftering step keeps the first sample and the Nyquist sample
(`fftSize / 2`) unscaled, doubles every sample strictly between them, and
zeroes every sample strictly between `fftSize / 2` and `fftSize`. -/
theorem liftering_spec (fftSize : ℕ) (c : ℕ → ℚ) :
    lifteredCepstrum fftSize c 0 = c 0 ∧
    lifteredCepstrum fftSize c (fftSize / 2) = c (fftSize / 2) ∧
    (∀ n, 0 < n → n < fftSize / 2 → lifteredCepstrum fftSize c n = 2 * c n) ∧
    (∀ n, fftSize / 2 < n → n < fftSize → lifteredCepstrum fftSize c n = 0) := by
  refine ⟨?_, ?_, ?_, ?_⟩
  · unfold lifteredCepstrum
    split
    · next h => omega
    · split
      · next h => omega
      · rfl
  · unfold lifteredCepstrum
    split
    · next h => omega
    · split
      · next h => omega
      · rfl
  · intro n h1 h2
    unfold lifteredCepstrum
    split
    · ring
    · next h => exact absurd ⟨h1, h2⟩ h
  · intro n h1 h2
    unfold lifteredCepstrum
    split
    · next h => omega
    · split
      · rfl
      · next _ h => exact absurd ⟨by omega, h2⟩ h

/-- Witness for C7: liftering a size-8 cepstrum doubles index 3 and
zeroes index 6. -/
theorem liftering_witness :
    lifteredCepstrum 8 (fun n => (n : ℚ) + 1) 3 = 2 * ((3 : ℚ) + 1) ∧
    lifteredCepstrum 8 (fun n => (n : ℚ) + 1) 6 = 0 :=
  ⟨(liftering_spec 8 (fun n => (n : ℚ) + 1)).2.2.1 3 (by norm_num) (by norm_num),
   (liftering_spec 8 (fun n => (n : ℚ) + 1)).2.2.2 6 (by norm_num) (by norm_num)⟩

/-- C1: one sweep of the deferred-reclamation queue
(`AudioEngine::timerCallback`): it frees exactly the queue entries whose
reference count is 1 (the queue itself is the sole holder); entries with
any other holder stay queued, the pending buffer is merged into the queue
untouched, and the over-20 soft cap only decides the diagnostic flag —
it never removes or frees an entry. The convolver-local bin maintained in
`ConvolverProcessor::applyNewState` obeys the same sole-holder rule. -/
theorem reclamation_sweep_spec (s : TrashState) (tb : List RCEntry)
    (oldConv : RCEntry) :
    (∀ e : RCEntry, e ∈ (timerSweep s).freed ↔ e ∈ s.trashBin ∧ e.rc = 1) ∧
    (∀ e : RCEntry, e ∈ (timerSweep s).after.trashBin ↔
      (e ∈ s.trashBin ∧ ¬ e.rc = 1) ∨ e ∈ s.trashBinPending) ∧
    (timerSweep s).after.trashBinPending = [] ∧
    ((timerSweep s).diagnostic = true ↔ 20 < (timerSweep s).after.trashBin.length) ∧
    (∀ e : RCEntry, e ∈ (convolverBinAfterPublish tb oldConv).2 ↔
      (e ∈ tb ∨ e = oldConv) ∧ e.rc = 1) ∧
    (∀ e : RCEntry, e ∈ (convolverBinAfterPublish tb oldConv).1 ↔
      (e ∈ tb ∨ e = oldConv) ∧ ¬ e.rc = 1) := by
  refine ⟨?_, ?_, rfl, ?_, ?_, ?_⟩
  · intro e
    simp [timerSweep, List.mem_filter]
  · intro e
    simp [timerSweep, List.mem_filter, List.mem_append]
  · simp [timerSweep]
  · intro e
    simp [convolverBinAfterPublish, List.mem_filter, List.mem_append]
    tauto
  · intro e
    simp [convolverBinAfterPublish, List.mem_filter, List.mem_append]
    tauto

/-- Witness for C1 at a concrete queue: the sole-held entry is freed, the
shared entry and the pending entry survive the sweep. -/
theorem reclamation_sweep_witness :
    (⟨0, 1⟩ : RCEntry) ∈ (timerSweep ⟨[⟨0, 1⟩, ⟨1, 3⟩], [⟨2, 1⟩]⟩).freed ∧
    (⟨1, 3⟩ : RCEntry) ∈ (timerSweep ⟨[⟨0, 1⟩, ⟨1, 3⟩], [⟨2, 1⟩]⟩).after.trashBin ∧
    (⟨2, 1⟩ : RCEntry) ∈ (timerSweep ⟨[⟨0, 1⟩, ⟨1, 3⟩], [⟨2, 1⟩]⟩).after.trashBin :=
  ⟨((reclamation_sweep_spec ⟨[⟨0, 1⟩, ⟨1, 3⟩], [⟨2, 1⟩]⟩ [] ⟨0, 0⟩).1 ⟨0, 1⟩).mpr
      (by decide),
   ((reclamation_sweep_spec ⟨[⟨0, 1⟩, ⟨1, 3⟩], [⟨2, 1⟩]⟩ [] ⟨0, 0⟩).2.1 ⟨1, 3⟩).mpr
      (by decide),
   ((reclamation_sweep_spec ⟨[⟨0, 1⟩, ⟨1, 3⟩], [⟨2, 1⟩]⟩ [] ⟨0, 0⟩).2.1 ⟨2, 1⟩).mpr
      (by decide)⟩

lemma computeTargetIRLength_eq (sr t : ℚ) (h : 0 ≤ sr * t) :
    computeTargetIRLength sr t = min ⌊sr * t⌋ 2097152 := by
  unfold computeTargetIRLength cTrunc MAX_IR_LATENCY
  rw [if_pos h]

lemma trimChannel_length (src : List ℚ) (tl : ℕ) :
    (trimChannel src tl).length = tl := by
  simp [trimChannel]

lemma trimChannel_getD (src : List ℚ) (tl i : ℕ) (hi : i < tl) :
    (trimChannel src tl).getD i 0 =
      (let copySamples := min tl src.length
       let base := if i < copySamples then src.getD i 0 else 0
       if copySamples > 256 ∧ copySamples - 256 ≤ i ∧ i < copySamples then
         base * fadeGain 256 (i - (copySamples - 256))
       else base) := by
  have hlen : i < (trimChannel src tl).length := by
    rw [trimChannel_length]; exact hi
  rw [List.getD_eq_getElem _ _ hlen]
  simp [trimChannel]

lemma trimChannel_getD_of_ge (src : List ℚ) (tl i : ℕ)
    (hi : min tl src.length ≤ i) :
    (trimChannel src tl).getD i 0 = 0 := by
  by_cases hit : i < tl
  · rw [trimChannel_getD src tl i hit]
    have h1 : ¬ i < min tl src.length := not_lt.mpr hi
    simp [h1]
  · exact List.getD_eq_default _ _ (by rw [trimChannel_length]; omega)

lemma trimChannel_getD_fade (src : List ℚ) (tl i : ℕ) (h1 : tl ≤ src.length)
    (h2 : 256 < tl) (h3 : tl - 256 ≤ i) (h4 : i < tl) :
    (trimChannel src tl).getD i 0 =
      src.getD i 0 * fadeGain 256 (i - (tl - 256)) := by
  rw [trimChannel_getD src tl i h4]
  have hc : min tl src.length = tl := min_eq_left h1
  simp [hc, h2, h3, h4]

lemma trimChannel_getD_copy (src : List ℚ) (tl i : ℕ)
    (hi : i < min tl src.length)
    (hfade : ¬ (256 < min tl src.length ∧ min tl src.length - 256 ≤ i)) :
    (trimChannel src tl).getD i 0 = src.getD i 0 := by
  rw [trimChannel_getD src tl i (lt_of_lt_of_le hi (min_le_left _ _))]
  simp only [hi, if_true, gt_iff_lt]
  split
  · next h => exact absurd ⟨h.1, h.2.1⟩ hfade
  · rfl

/-- Inversion of a successful `loaderRun`: names the intermediate stage
results and exposes the published record. -/
lemma loaderRun_inv (isReb : Bool) (cached : List (List ℚ)) (cSR : ℚ)
    (f : SourceFile) (sr : ℚ) (bs : ℕ) (ump : Bool) (t : ℚ)
    (rs : List (List ℚ)) (cs : Bool) (mpc : List (List ℚ))
    (pub : PublishedState)
    (hpub : loaderRun isReb cached cSR f sr bs ump t rs cs mpc = some pub) :
    ∃ ir0 sr0 ir1 sr1 kern,
      loaderAcquire isReb cached cSR f = some (ir0, sr0) ∧
      resampleStage ir0 sr0 sr rs = some (ir1, sr1) ∧
      loaderMinPhaseStage ump
        ((normalizeStage isReb (silenceTrimStage ir1)).map
          (fun ch => trimChannel ch (computeTargetIRLength sr t).toNat)) cs mpc
        = some kern ∧
      cs = false ∧
      pub = { kernel := kern
              irLatency := loaderLatencyStage ump kern
              latency := bs
              targetLength := computeTargetIRLength sr t
              loadedIR := normalizeStage isReb (silenceTrimStage ir1)
              loadedSR := sr1
              isRebuild := isReb } := by
  unfold loaderRun at hpub
  split at hpub
  · exact absurd hpub (by simp)
  next ir0 sr0 h1 =>
  split at hpub
  · exact absurd hpub (by simp)
  next ir1 sr1 h2 =>
  split at hpub
  · exact absurd hpub (by simp)
  next kern h3 =>
  split at hpub
  · exact absurd hpub (by simp)
  next hcs =>
  refine ⟨ir0, sr0, ir1, sr1, kern, h1, h2, h3, by simpa using hcs, ?_⟩
  exact (Option.some.injEq _ _ |>.mp hpub).symm

/-- C4: every successful load or rebuild publishes target length
`min(⌊SR·T⌋, 2097152)` (reported afterwards by `getIRLength()`),
independent of the source length; with minimum-phase mode off every
published kernel channel has exactly that many samples; trimming
zero-pads a shorter source beyond its end and, when the source is
truncated, applies the 256-sample fade ramp before the cut point. -/
theorem published_ir_length_spec (isReb : Bool) (cached : List (List ℚ))
    (cSR : ℚ) (f : SourceFile) (sr : ℚ) (bs : ℕ) (ump : Bool) (t : ℚ)
    (rs : List (List ℚ)) (cs : Bool) (mpc : List (List ℚ))
    (pub : PublishedState) (st : CtlState)
    (h0 : 0 ≤ sr * t)
    (hpub : loaderRun isReb cached cSR f sr bs ump t rs cs mpc = some pub) :
    pub.targetLength = min ⌊sr * t⌋ 2097152 ∧
    (applyNewState st pub).irLength = min ⌊sr * t⌋ 2097152 ∧
    (ump = false →
      ∀ ch ∈ pub.kernel, ch.length = (min ⌊sr * t⌋ 2097152).toNat) ∧
    (∀ src : List ℚ, ∀ i,
      min (min ⌊sr * t⌋ 2097152).toNat src.length ≤ i →
      (trimChannel src (min ⌊sr * t⌋ 2097152).toNat).getD i 0 = 0) ∧
    (∀ src : List ℚ, ∀ i, (min ⌊sr * t⌋ 2097152).toNat ≤ src.length →
      256 < (min ⌊sr * t⌋ 2097152).toNat →
      (min ⌊sr * t⌋ 2097152).toNat - 256 ≤ i →
      i < (min ⌊sr * t⌋ 2097152).toNat →
      (trimChannel src (min ⌊sr * t⌋ 2097152).toNat).getD i 0 =
        src.getD i 0 * fadeGain 256 (i - ((min ⌊sr * t⌋ 2097152).toNat - 256))) := by
  obtain ⟨ir0, sr0, ir1, sr1, kern, _, _, h3, _, hp⟩ :=
    loaderRun_inv isReb cached cSR f sr bs ump t rs cs mpc pub hpub
  have htl : computeTargetIRLength sr t = min ⌊sr * t⌋ 2097152 :=
    computeTargetIRLength_eq sr t h0
  refine ⟨by rw [hp]; exact htl, by simp [applyNewState, hp]; exact htl, ?_, ?_, ?_⟩
  · intro hump ch hch
    rw [hp] at hch
    simp only [hump] at h3
    unfold loaderMinPhaseStage at h3
    rw [if_neg Bool.false_ne_true] at h3
    obtain rfl := Option.some.injEq _ _ |>.mp h3 |>.symm
    simp only at hch
    obtain ⟨ch0, _, rfl⟩ := List.mem_map.mp hch
    rw [trimChannel_length, htl]
  · intro src i hi
    exact trimChannel_getD_of_ge src _ i hi
  · intro src i h1 h2 h3' h4
    exact trimChannel_getD_fade src _ i h1 h2 h3' h4

lemma loaderRun_eval_c4 :
    loaderRun false [] 0 ⟨true, true, 1, [[1]], 2⟩ 2 512 false (1/2) [] false [] =
      some ⟨[[1]], 0, 512, 1, [[1]], 2, false⟩ := by
  norm_num [loaderRun, loaderAcquire, resampleStage, silenceTrimStage, bufNumSamples,
    trimLenAux, silentAt, SILENCE_TRIM_THRESHOLD, normalizeStage, bufMagnitude,
    channelMagnitude, computeTargetIRLength, cTrunc, MAX_IR_LATENCY, MAX_FILE_LENGTH,
    trimChannel, fadeGain, List.range_succ, loaderMinPhaseStage, loaderLatencyStage,
    peakScan, scanChannel, abs]

/-- Witness for C4: a one-sample file loaded at 2 Hz with a 0.5 s target
publishes target length `min(⌊2 · 0.5⌋, 2097152) = 1`. -/
theorem published_ir_length_witness :
    (0 : ℚ) ≤ 2 * (1/2) ∧
    (⟨[[1]], 0, 512, 1, [[1]], 2, false⟩ : PublishedState).targetLength =
      min ⌊(2 : ℚ) * (1/2)⌋ 2097152 :=
  ⟨by norm_num,
   (published_ir_length_spec false [] 0 ⟨true, true, 1, [[1]], 2⟩ 2 512 false (1/2)
      [] false [] ⟨[[1]], 0, 512, 1, [[1]], 2, false⟩ ⟨[], 0, 0, false⟩
      (by norm_num) loaderRun_eval_c4).1⟩

/-- C2 (amended): a `process` call whose block has zero samples, no
channels, or more samples than either pre-allocated buffer computes
nothing and returns with the block left exactly as it was handed in (the
guard is a bare `return`, it does not clear the block); `process` is a
total function, so no exception crosses the real-time boundary. -/
theorem oversized_block_guard_spec (env : ProcEnv) (mt : ℚ) (sm : Bool)
    (sv : ℕ → ℝ) (dOut cOut : ℕ → ℕ → ℝ) (block : AudioBlock)
    (h : block.numSamples = 0 ∨ min block.numChannels 2 = 0 ∨
         env.dryBufferLen < block.numSamples ∨
         env.convBufferLen < block.numSamples) :
    (process env mt sm sv dOut cOut block).2 = block := by
  unfold process
  split
  · rfl
  · dsimp only
    split
    · rfl
    · next hcond =>
      exfalso
      simp only [Bool.or_eq_true, decide_eq_true_eq, not_or, gt_iff_lt,
        not_lt] at hcond
      rcases h with h | h | h | h
      · exact absurd h (by omega)
      · exact absurd h (by omega)
      · exact absurd h (by omega)
      · exact absurd h (by omega)

/-- Counterexample for C2 as stated: a 5-sample block against 4-sample
buffers is rejected, but the output block still holds the input signal
(value 1), not silence. -/
theorem oversized_block_clear_cex :
    (process ⟨true, false, some ⟨512, 0⟩, 4, 4⟩ (1/2) false (fun _ => 0)
        (fun _ _ => 0) (fun _ _ => 0) ⟨2, 5, fun _ _ => 1⟩).2.sample 0 0 ≠ 0 := by
  norm_num [process]

/-- Witness for C2: the guard theorem applied to the same oversized
block. -/
theorem oversized_block_guard_witness :
    ((5 : ℕ) = 0 ∨ min 2 2 = 0 ∨ (4 : ℕ) < 5 ∨ (4 : ℕ) < 5) ∧
    (process ⟨true, false, some ⟨512, 0⟩, 4, 4⟩ (1/2) false (fun _ => 0)
        (fun _ _ => 0) (fun _ _ => 0) ⟨2, 5, fun _ _ => 1⟩).2 =
      ⟨2, 5, fun _ _ => 1⟩ :=
  ⟨by decide,
   oversized_block_guard_spec ⟨true, false, some ⟨512, 0⟩, 4, 4⟩ (1/2) false
     (fun _ => 0) (fun _ _ => 0) (fun _ _ => 0) ⟨2, 5, fun _ _ => 1⟩
     (by decide)⟩

/-- C5 (amended): with a kernel loaded and bypass off, while the smoothed
mix parameter is steady at `m` with `0.001 < m < 0.999` every output
sample is `wet·sin(m·π/2) + dry·cos(m·π/2)` with one constant gain pair
(`wet` being the headroom-attenuated convolved signal); while the
parameter ramps the same formula is applied per sample with the smoothed
value. At a steady `m ≤ 0.001` the output is exactly the dry signal, and
at a steady `m ≥ 0.999` exactly the headroom-attenuated wet signal —
not the equal-power blend. -/
theorem equal_power_mix_spec (m : ℚ) (sv co dr : ℕ → ℝ) (i : ℕ)
    (h1 : 1/1000 < m) (h2 : m < 999/1000) :
    mixStage m false sv co dr i =
      (co i * (1/2)) * Real.sin ((m : ℝ) * (Real.pi/2)) +
        dr i * Real.cos ((m : ℝ) * (Real.pi/2)) ∧
    mixStage m true sv co dr i =
      (co i * (1/2)) * Real.sin (sv i * (Real.pi/2)) +
        dr i * Real.cos (sv i * (Real.pi/2)) ∧
    (∀ m' : ℚ, m' ≤ 1/1000 → mixStage m' false sv co dr i = dr i) ∧
    (∀ m' : ℚ, 999/1000 ≤ m' → mixStage m' false sv co dr i = co i * (1/2)) := by
  refine ⟨?_, ?_, ?_, ?_⟩
  · simp only [mixStage, Bool.false_or]
    rw [decide_eq_true h1, decide_eq_true h2]
    simp
  · simp only [mixStage, Bool.true_or]
    simp
  · intro m' hm'
    simp only [mixStage, Bool.false_or]
    rw [decide_eq_false (not_lt.mpr hm')]
    simp
  · intro m' hm'
    simp only [mixStage, Bool.false_or]
    rw [decide_eq_true (lt_of_lt_of_le (by norm_num) hm'),
      decide_eq_false (not_lt.mpr hm')]
    simp

/-- Counterexample for C5 as stated: at the steady mix value 0.999 the
code takes the 100%-wet shortcut and outputs the attenuated wet sample
(here 0), while the claimed equal-power formula yields
`cos(0.999·π/2) ≠ 0` for a unit dry sample. -/
theorem equal_power_mix_cex :
    ¬ (mixStage (999/1000) false (fun _ => 0) (fun _ => 0) (fun _ => 1) 0 =
        (0 * (1/2)) * Real.sin (((999/1000 : ℚ) : ℝ) * (Real.pi/2)) +
          1 * Real.cos (((999/1000 : ℚ) : ℝ) * (Real.pi/2))) := by
  intro h
  have hl : mixStage (999/1000) false (fun _ => 0) (fun _ => 0) (fun _ => 1) 0
      = 0 := by
    simp only [mixStage, Bool.false_or]
    rw [decide_eq_true (by norm_num : (1 : ℚ)/1000 < 999/1000),
      decide_eq_false (by norm_num : ¬ ((999 : ℚ)/1000 < 999/1000))]
    simp
  have hcos : 0 < Real.cos (((999/1000 : ℚ) : ℝ) * (Real.pi/2)) := by
    apply Real.cos_pos_of_mem_Ioo
    constructor
    · push_cast
      nlinarith [Real.pi_pos]
    · push_cast
      nlinarith [Real.pi_pos]
  rw [hl] at h
  have : (0 : ℝ) = Real.cos (((999/1000 : ℚ) : ℝ) * (Real.pi/2)) := by
    rw [h]; ring
  linarith

/-- Witness for C5: the steady equal-power formula at mix 0.5. -/
theorem equal_power_mix_witness :
    ((1 : ℚ)/1000 < 1/2 ∧ (1/2 : ℚ) < 999/1000) ∧
    mixStage (1/2) false (fun _ => 0) (fun _ => 1) (fun _ => 1) 0 =
      (1 * (1/2)) * Real.sin (((1/2 : ℚ) : ℝ) * (Real.pi/2)) +
        1 * Real.cos (((1/2 : ℚ) : ℝ) * (Real.pi/2)) :=
  ⟨⟨by norm_num, by norm_num⟩,
   (equal_power_mix_spec (1/2) (fun _ => 0) (fun _ => 1) (fun _ => 1) 0
      (by norm_num) (by norm_num)).1⟩

/-- C3 (amended): an unreadable or corrupt source (nonexistent file,
no decoder, over-long file, zero decoded samples) makes ingestion abort
without publishing — controller state and the active convolution state
are left unchanged, so the prior kernel is retained. The synchronous
`false` return of `loadImpulseResponse` signals the failure to the
caller only for a nonexistent file; the other failures are detected on
the worker thread after `loadImpulseResponse` has already returned
`true`. -/
theorem ingestion_failure_spec (st : CtlState) (active : Option PublishedState)
    (f : SourceFile) (sr : ℚ) (bs : ℕ) (ump : Bool) (t : ℚ)
    (rs : List (List ℚ)) (cs : Bool) (mpc : List (List ℚ))
    (h : f.existsAsFile = false ∨ f.hasDecoder = false ∨
         MAX_FILE_LENGTH < f.lengthInSamples ∨ f.lengthInSamples = 0) :
    (f.existsAsFile = false → loadImpulseResponse st (some f) = false) ∧
    processorAfterLoad st active false f sr bs ump t rs cs mpc = (st, active) := by
  have hacq : loaderAcquire false st.originalIR st.originalIRSampleRate f = none := by
    unfold loaderAcquire
    rcases h with h | h | h | h
    · simp [h]
    · simp [h]
    · simp [h, gt_iff_lt]
    · simp [h]
  have hrun : loaderRun false st.originalIR st.originalIRSampleRate f sr bs ump
      t rs cs mpc = none := by
    unfold loaderRun
    rw [hacq]
  refine ⟨?_, ?_⟩
  · intro he
    simp [loadImpulseResponse, he]
  · unfold processorAfterLoad
    rw [hrun]

/-- Counterexample for C3 as stated: a file that exists but has no
decoder makes `loadImpulseResponse` return `true` (no failure signalled
to its caller), while the worker aborts without publishing. -/
theorem ingestion_signal_cex :
    loadImpulseResponse ⟨[], 0, 0, false⟩ (some ⟨true, false, 5, [[1]], 8⟩) ≠ false ∧
    loaderRun false [] 0 ⟨true, false, 5, [[1]], 8⟩ 8 512 false (1/2) [] false [] =
      none := by
  constructor
  · simp [loadImpulseResponse]
  · unfold loaderRun loaderAcquire
    simp

/-- Witness for C3: the decoder-less file of the counterexample leaves
the processor state and active kernel untouched. -/
theorem ingestion_failure_witness :
    ((⟨true, false, 5, [[1]], 8⟩ : SourceFile).existsAsFile = false ∨
     (⟨true, false, 5, [[1]], 8⟩ : SourceFile).hasDecoder = false ∨
     MAX_FILE_LENGTH < (⟨true, false, 5, [[1]], 8⟩ : SourceFile).lengthInSamples ∨
     (⟨true, false, 5, [[1]], 8⟩ : SourceFile).lengthInSamples = 0) ∧
    processorAfterLoad ⟨[], 0, 0, false⟩ none false ⟨true, false, 5, [[1]], 8⟩
      8 512 false (1/2) [] false [] = (⟨[], 0, 0, false⟩, none) :=
  ⟨Or.inr (Or.inl rfl),
   (ingestion_failure_spec ⟨[], 0, 0, false⟩ none ⟨true, false, 5, [[1]], 8⟩
      8 512 false (1/2) [] false [] (Or.inr (Or.inl rfl))).2⟩

lemma convertCtl_cap (lin mp : List (List ℚ)) (cs : Bool)
    (hcap : MAX_MINPHASE_FFT_SIZE < nextPow2 (bufNumSamples lin * 4)) :
    convertToMinimumPhaseCtl lin cs mp = ⟨false, []⟩ := by
  unfold convertToMinimumPhaseCtl
  simp only [gt_iff_lt]
  rw [if_pos hcap]

lemma convertCtl_ok (lin mp : List (List ℚ))
    (hcap : nextPow2 (bufNumSamples lin * 4) ≤ MAX_MINPHASE_FFT_SIZE) :
    convertToMinimumPhaseCtl lin false mp = ⟨false, mp⟩ := by
  unfold convertToMinimumPhaseCtl
  simp only [gt_iff_lt]
  rw [if_neg (not_lt.mpr hcap)]
  simp

/-- C6 (amended): with minimum-phase mode enabled, a transform whose FFT
size exceeds the cap (it returns an empty buffer) or whose result is
near-silent (channel-0 peak not above `1.0e-5`) is discarded and the
untransformed linear-phase kernel is the one kept; a successful
transform's kernel replaces it; but a cancelled transform aborts the
whole load — nothing (not even the linear-phase kernel) is published. -/
theorem minphase_fallback_spec (trimmed mp : List (List ℚ)) (isReb : Bool)
    (cached : List (List ℚ)) (cSR : ℚ) (f : SourceFile) (sr : ℚ) (bs : ℕ)
    (t : ℚ) (rs : List (List ℚ)) (mpc : List (List ℚ)) :
    loaderRun isReb cached cSR f sr bs true t rs true mpc = none ∧
    (MAX_MINPHASE_FFT_SIZE < nextPow2 (bufNumSamples trimmed * 4) →
      loaderMinPhaseStage true trimmed false mp = some trimmed) ∧
    (bufNumSamples mp = 0 ∨ channelMagnitude (mp.headD []) ≤ 1/100000 →
      loaderMinPhaseStage true trimmed false mp = some trimmed) ∧
    (nextPow2 (bufNumSamples trimmed * 4) ≤ MAX_MINPHASE_FFT_SIZE →
      0 < bufNumSamples mp → 1/100000 < channelMagnitude (mp.headD []) →
      loaderMinPhaseStage true trimmed false mp = some mp) := by
  refine ⟨?_, ?_, ?_, ?_⟩
  · unfold loaderRun
    split
    · rfl
    · split
      · rfl
      · split
        · rfl
        · simp
  · intro hcap
    unfold loaderMinPhaseStage
    rw [convertCtl_cap trimmed mp false hcap]
    simp [bufNumSamples]
  · intro hdeg
    by_cases hcap : MAX_MINPHASE_FFT_SIZE < nextPow2 (bufNumSamples trimmed * 4)
    · unfold loaderMinPhaseStage
      rw [convertCtl_cap trimmed mp false hcap]
      simp [bufNumSamples]
    · unfold loaderMinPhaseStage
      rw [convertCtl_ok trimmed mp (not_lt.mp hcap)]
      dsimp only
      have hnc : ¬ (0 < bufNumSamples mp ∧
          1/100000 < channelMagnitude (mp.headD [])) := by
        rintro ⟨hc1, hc2⟩
        rcases hdeg with hdeg | hdeg
        · omega
        · exact absurd hc2 (not_lt.mpr hdeg)
      rw [if_pos rfl, if_neg Bool.false_ne_true, if_neg hnc]
  · intro hcap h0 hmag
    unfold loaderMinPhaseStage
    rw [convertCtl_ok trimmed mp hcap]
    dsimp only
    rw [if_pos rfl, if_neg Bool.false_ne_true, if_pos ⟨h0, hmag⟩]

/-- Counterexample for C6 as stated: a cancellation observed during the
minimum-phase transform of a rebuild publishes nothing at all — in
particular not the untransformed linear-phase kernel `[[1,0,0,0]]` the
claim requires. -/
theorem minphase_cancel_cex :
    loaderRun true [[1]] 8 ⟨false, false, 0, [], 0⟩ 8 512 true (1/2) [] true [] =
      none ∧
    loaderRun true [[1]] 8 ⟨false, false, 0, [], 0⟩ 8 512 true (1/2) [] true [] ≠
      some ⟨[[1, 0, 0, 0]], 0, 512, 4, [[1]], 8, true⟩ := by
  have h : loaderRun true [[1]] 8 ⟨false, false, 0, [], 0⟩ 8 512 true (1/2) []
      true [] = none := by
    unfold loaderRun
    split
    · rfl
    · split
      · rfl
      · split
        · rfl
        · simp
  exact ⟨h, by rw [h]; simp⟩

lemma nextPow2_eight_le : nextPow2 (bufNumSamples [[(1 : ℚ), 0]] * 4) ≤
    MAX_MINPHASE_FFT_SIZE := by
  have h8 : bufNumSamples [[(1 : ℚ), 0]] * 4 = 8 := by simp [bufNumSamples]
  rw [h8]
  unfold nextPow2 MAX_MINPHASE_FFT_SIZE
  rw [show (8 : ℕ) = 2 ^ 3 by norm_num, Nat.clog_pow 2 3 (by norm_num)]
  norm_num

/-- Witness for C6: a non-degenerate transform result replaces the
linear-phase kernel. -/
theorem minphase_fallback_witness :
    nextPow2 (bufNumSamples [[(1 : ℚ), 0]] * 4) ≤ MAX_MINPHASE_FFT_SIZE ∧
    0 < bufNumSamples [[(1 : ℚ), 1]] ∧
    (1 : ℚ)/100000 < channelMagnitude (([[(1 : ℚ), 1]]).headD []) ∧
    loaderMinPhaseStage true [[(1 : ℚ), 0]] false [[(1 : ℚ), 1]] =
      some [[(1 : ℚ), 1]] :=
  ⟨nextPow2_eight_le, by simp [bufNumSamples], by norm_num [channelMagnitude, abs],
   (minphase_fallback_spec [[(1 : ℚ), 0]] [[(1 : ℚ), 1]] false [] 0
      ⟨false, false, 0, [], 0⟩ 0 0 0 [] []).2.2.2 nextPow2_eight_le
      (by simp [bufNumSamples]) (by norm_num [channelMagnitude, abs])⟩

/-- C9 (amended): every completed new-file load retains, as the raw
asset for later rebuilds, the loader's working buffer as it stands after
resampling, trailing-silence trimming and peak-normalization — together
with the rate that buffer is at: the device (target) rate when the
source's native rate differed from it by more than 1 Hz, the native rate
otherwise. Rebuild requests then start from exactly that retained pair
and never touch the file. -/
theorem raw_asset_retention_spec (st : CtlState) (active : Option PublishedState)
    (f : SourceFile) (sr : ℚ) (bs : ℕ) (ump : Bool) (t : ℚ)
    (rs : List (List ℚ)) (cs : Bool) (mpc : List (List ℚ))
    (pub : PublishedState)
    (hpub : loaderRun false st.originalIR st.originalIRSampleRate f sr bs ump t
      rs cs mpc = some pub) :
    (processorAfterLoad st active false f sr bs ump t rs cs mpc).1.originalIR =
      pub.loadedIR ∧
    (processorAfterLoad st active false f sr bs ump t rs cs
        mpc).1.originalIRSampleRate = pub.loadedSR ∧
    (processorAfterLoad st active false f sr bs ump t rs cs mpc).2 = some pub ∧
    pub.loadedSR = (if 0 < f.sampleRate ∧ 0 < sr ∧ 1 < |f.sampleRate - sr|
      then sr else f.sampleRate) ∧
    pub.loadedIR = normalizeStage false (silenceTrimStage
      (if 0 < f.sampleRate ∧ 0 < sr ∧ 1 < |f.sampleRate - sr|
        then rs else f.samples)) ∧
    (∀ g g' : SourceFile, ∀ c : List (List ℚ), ∀ s : ℚ,
      loaderAcquire true c s g = loaderAcquire true c s g') := by
  obtain ⟨ir0, sr0, ir1, sr1, kern, h1, h2, h3, hcs, hp⟩ :=
    loaderRun_inv false st.originalIR st.originalIRSampleRate f sr bs ump t rs
      cs mpc pub hpub
  have hacq : ir0 = f.samples ∧ sr0 = f.sampleRate := by
    unfold loaderAcquire at h1
    split_ifs at h1 <;> simp_all
  obtain ⟨rfl, rfl⟩ := hacq
  have hres : ir1 = (if 0 < f.sampleRate ∧ 0 < sr ∧ 1 < |f.sampleRate - sr|
      then rs else f.samples) ∧
      sr1 = (if 0 < f.sampleRate ∧ 0 < sr ∧ 1 < |f.sampleRate - sr|
        then sr else f.sampleRate) := by
    unfold resampleStage at h2
    by_cases hcond : 0 < f.sampleRate ∧ 0 < sr ∧ 1 < |f.sampleRate - sr|
    · rw [if_pos hcond] at h2
      rw [if_pos hcond, if_pos hcond]
      split at h2
      · exact absurd h2 (by simp)
      · simp only [Option.some.injEq, Prod.mk.injEq] at h2
        exact ⟨h2.1.symm, h2.2.symm⟩
    · rw [if_neg hcond] at h2
      rw [if_neg hcond, if_neg hcond]
      simp only [Option.some.injEq, Prod.mk.injEq] at h2
      exact ⟨h2.1.symm, h2.2.symm⟩
  have hload : processorAfterLoad st active false f sr bs ump t rs cs mpc =
      (applyNewState st pub, some pub) := by
    unfold processorAfterLoad
    rw [hpub]
  refine ⟨?_, ?_, ?_, ?_, ?_, ?_⟩
  · rw [hload]
    simp [applyNewState, hp]
  · rw [hload]
    simp [applyNewState, hp]
  · rw [hload]
  · rw [hp]
    exact hres.2
  · rw [hp]
    simp only
    rw [hres.1]
  · intro g g' c s
    unfold loaderAcquire
    rfl

lemma loaderRun_eval_c9 :
    loaderRun false [] 0 ⟨true, true, 1, [[1]], 2⟩ 16 512 false (1/2) [[1, 1]]
      false [] =
      some ⟨[[1, 1, 0, 0, 0, 0, 0, 0]], 0, 512, 8, [[1, 1]], 16, false⟩ := by
  have h8 : (8 : ℤ).toNat = 8 := rfl
  norm_num [loaderRun, loaderAcquire, resampleStage, silenceTrimStage,
    bufNumSamples, trimLenAux, silentAt, SILENCE_TRIM_THRESHOLD, normalizeStage,
    bufMagnitude, channelMagnitude, computeTargetIRLength, cTrunc,
    MAX_IR_LATENCY, MAX_FILE_LENGTH, trimChannel, fadeGain, List.range_succ,
    loaderMinPhaseStage, loaderLatencyStage, peakScan, scanChannel, abs, h8]

/-- Counterexample for C9 as stated: a 2 Hz mono source loaded while the
device runs at 16 Hz is retained resampled at 16 Hz — neither the
decoded source samples `[[1]]` nor their native rate 2 survive. -/
theorem raw_asset_native_rate_cex :
    (processorAfterLoad ⟨[], 0, 0, false⟩ none false ⟨true, true, 1, [[1]], 2⟩ 16
        512 false (1/2) [[1, 1]] false []).1.originalIRSampleRate = 16 ∧
    (16 : ℚ) ≠ 2 ∧
    (processorAfterLoad ⟨[], 0, 0, false⟩ none false ⟨true, true, 1, [[1]], 2⟩ 16
        512 false (1/2) [[1, 1]] false []).1.originalIR = [[1, 1]] ∧
    ([[1, 1]] : List (List ℚ)) ≠ [[1]] := by
  have hload : processorAfterLoad ⟨[], 0, 0, false⟩ none false
      ⟨true, true, 1, [[1]], 2⟩ 16 512 false (1/2) [[1, 1]] false [] =
      (applyNewState ⟨[], 0, 0, false⟩
        ⟨[[1, 1, 0, 0, 0, 0, 0, 0]], 0, 512, 8, [[1, 1]], 16, false⟩,
       some ⟨[[1, 1, 0, 0, 0, 0, 0, 0]], 0, 512, 8, [[1, 1]], 16, false⟩) := by
    unfold processorAfterLoad
    rw [loaderRun_eval_c9]
  refine ⟨?_, by norm_num, ?_, by simp⟩
  · rw [hload]
    simp [applyNewState]
  · rw [hload]
    simp [applyNewState]

/-- Witness for C9: the retention theorem applied to this load: the
retained asset equals the published `loadedIR`. -/
theorem raw_asset_retention_witness :
    loaderRun false [] 0 ⟨true, true, 1, [[1]], 2⟩ 16 512 false (1/2) [[1, 1]]
      false [] =
      some ⟨[[1, 1, 0, 0, 0, 0, 0, 0]], 0, 512, 8, [[1, 1]], 16, false⟩ ∧
    (processorAfterLoad ⟨[], 0, 0, false⟩ none false ⟨true, true, 1, [[1]], 2⟩ 16
        512 false (1/2) [[1, 1]] false []).1.originalIR =
      (⟨[[1, 1, 0, 0, 0, 0, 0, 0]], 0, 512, 8, [[1, 1]], 16, false⟩ :
        PublishedState).loadedIR :=
  ⟨loaderRun_eval_c9,
   (raw_asset_retention_spec ⟨[], 0, 0, false⟩ none ⟨true, true, 1, [[1]], 2⟩ 16
      512 false (1/2) [[1, 1]] false []
      ⟨[[1, 1, 0, 0, 0, 0, 0, 0]], 0, 512, 8, [[1, 1]], 16, false⟩
      loaderRun_eval_c9).1⟩

lemma scanChannel_fst_le (xs : List ℚ) (i : ℕ) (acc : ℚ × ℕ) :
    acc.1 ≤ (scanChannel xs i acc).1 := by
  induction xs generalizing i acc with
  | nil => exact le_refl _
  | cons x xs ih =>
    simp only [scanChannel]
    refine le_trans ?_ (ih (i + 1) (if |x| > acc.1 then (|x|, i) else acc))
    split
    · next h => exact le_of_lt h
    · exact le_refl _

lemma scanChannel_upper (xs : List ℚ) (j : ℕ) (hj : j < xs.length) (i : ℕ)
    (acc : ℚ × ℕ) : |xs.getD j 0| ≤ (scanChannel xs i acc).1 := by
  induction xs generalizing j i acc with
  | nil => simp at hj
  | cons x xs ih =>
    simp only [scanChannel]
    cases j with
    | zero =>
      simp only [List.getD_cons_zero]
      refine le_trans ?_ (scanChannel_fst_le xs (i + 1) _)
      split
      · exact le_refl _
      · next h => exact not_lt.mp h
    | succ j =>
      simp only [List.getD_cons_succ]
      exact ih j (by simpa using hj) (i + 1) _

lemma scanChannel_attained (xs : List ℚ) (i : ℕ) (acc : ℚ × ℕ) :
    scanChannel xs i acc = acc ∨
    ∃ j, j < xs.length ∧ (scanChannel xs i acc).1 = |xs.getD j 0| ∧
      (scanChannel xs i acc).2 = i + j := by
  induction xs generalizing i acc with
  | nil => exact Or.inl rfl
  | cons x xs ih =>
    simp only [scanChannel]
    by_cases hx : |x| > acc.1
    · rw [if_pos hx]
      rcases ih (i + 1) (|x|, i) with h | ⟨j, hj, h1, h2⟩
      · right
        refine ⟨0, by simp, ?_, ?_⟩
        · rw [h]
          simp
        · rw [h]
          simp
      · right
        refine ⟨j + 1, by simpa using hj, ?_, ?_⟩
        · rw [h1]
          simp [List.getD_cons_succ]
        · rw [h2]
          omega
    · rw [if_neg hx]
      rcases ih (i + 1) acc with h | ⟨j, hj, h1, h2⟩
      · exact Or.inl h
      · right
        refine ⟨j + 1, by simpa using hj, ?_, ?_⟩
        · rw [h1]
          simp [List.getD_cons_succ]
        · rw [h2]
          omega

lemma peakFold_fst_le (chs : List (List ℚ)) (acc : ℚ × ℕ) :
    acc.1 ≤ (chs.foldl (fun acc ch => scanChannel ch 0 acc) acc).1 := by
  induction chs generalizing acc with
  | nil => exact le_refl _
  | cons c cs ih =>
    simp only [List.foldl_cons]
    exact le_trans (scanChannel_fst_le c 0 acc) (ih _)

lemma peakFold_upper (chs : List (List ℚ)) (acc : ℚ × ℕ) :
    ∀ ch ∈ chs, ∀ j < ch.length,
      |ch.getD j 0| ≤ (chs.foldl (fun acc ch => scanChannel ch 0 acc) acc).1 := by
  induction chs generalizing acc with
  | nil =>
    intro ch hch
    simp at hch
  | cons c cs ih =>
    intro ch hch j hj
    simp only [List.foldl_cons]
    rcases List.mem_cons.mp hch with rfl | hmem
    · exact le_trans (scanChannel_upper ch j hj 0 acc) (peakFold_fst_le cs _)
    · exact ih _ ch hmem j hj

lemma peakFold_attained (chs : List (List ℚ)) (acc : ℚ × ℕ) :
    chs.foldl (fun acc ch => scanChannel ch 0 acc) acc = acc ∨
    ∃ ch ∈ chs, ∃ j, j < ch.length ∧
      (chs.foldl (fun acc ch => scanChannel ch 0 acc) acc).1 = |ch.getD j 0| ∧
      (chs.foldl (fun acc ch => scanChannel ch 0 acc) acc).2 = j := by
  induction chs generalizing acc with
  | nil => exact Or.inl rfl
  | cons c cs ih =>
    simp only [List.foldl_cons]
    rcases ih (scanChannel c 0 acc) with h | ⟨ch, hch, j, hj, h1, h2⟩
    · rcases scanChannel_attained c 0 acc with h' | ⟨j, hj, h1, h2⟩
      · left
        rw [h, h']
      · right
        refine ⟨c, List.mem_cons_self c cs, j, hj, ?_, ?_⟩
        · rw [h, h1]
        · rw [h, h2]
          omega
    · right
      exact ⟨ch, List.mem_cons_of_mem c hch, j, hj, h1, h2⟩

/-- The index carried out of the peak scan is the position of a sample of
maximal absolute value over all channels (whenever some channel is
nonempty). -/
lemma peakScan_argmax (chs : List (List ℚ)) (hne : ∃ ch ∈ chs, ch ≠ []) :
    ∃ ch ∈ chs, (peakScan chs).2 < ch.length ∧
      ∀ ch' ∈ chs, ∀ j < ch'.length,
        |ch'.getD j 0| ≤ |ch.getD (peakScan chs).2 0| := by
  obtain ⟨ch0, hch0, hne0⟩ := hne
  have h0 : 0 < ch0.length := List.length_pos.mpr hne0
  have hge : (0 : ℚ) ≤ (peakScan chs).1 :=
    le_trans (abs_nonneg _) (peakFold_upper chs (-1, 0) ch0 hch0 0 h0)
  rcases peakFold_attained chs (-1, 0) with h | ⟨ch, hch, j, hj, h1, h2⟩
  · exfalso
    have hm1 : (peakScan chs).1 = -1 := by
      unfold peakScan
      rw [h]
    rw [hm1] at hge
    linarith
  · have hidx : (peakScan chs).2 = j := h2
    refine ⟨ch, hch, ?_, ?_⟩
    · rw [hidx]
      exact hj
    · intro ch' hch' j' hj'
      have hub := peakFold_upper chs (-1, 0) ch' hch' j' hj'
      rw [hidx]
      calc |ch'.getD j' 0| ≤ (peakScan chs).1 := hub
        _ = |ch.getD j 0| := h1

/-- C8 (amended): when minimum-phase mode is off, the loader records as
IR latency the index (found by the peak scan) of a sample of maximum
absolute value across all kernel channels, and `process` sets the
dry-path delay to the block-processing latency plus that recorded index,
capped at `MAX_TOTAL_DELAY`. When minimum-phase mode is on the recorded
latency is always 0 — including the fallback case where the transform
failed and the published kernel is in fact linear-phase. -/
theorem linear_phase_latency_spec (trimmed : List (List ℚ))
    (hne : ∃ ch ∈ trimmed, ch ≠ []) (env : ProcEnv) (c : StereoConvolverInfo)
    (hconv : env.conv = some c) (mt : ℚ) (sm : Bool) (sv : ℕ → ℝ)
    (dOut cOut : ℕ → ℕ → ℝ) (block : AudioBlock) :
    (∃ ch ∈ trimmed, loaderLatencyStage false trimmed < ch.length ∧
      ∀ ch' ∈ trimmed, ∀ j < ch'.length,
        |ch'.getD j 0| ≤ |ch.getD (loaderLatencyStage false trimmed) 0|) ∧
    (process env mt sm sv dOut cOut block).1 =
      some (min (c.latency + c.irLatency) MAX_TOTAL_DELAY) ∧
    (∀ buf : List (List ℚ), loaderLatencyStage true buf = 0) := by
  refine ⟨?_, ?_, fun buf => rfl⟩
  · have h := peakScan_argmax trimmed hne
    simpa [loaderLatencyStage] using h
  · unfold process
    split
    · simp [hconv]
    · dsimp only
      split
      · simp [hconv]
      · simp [hconv]

lemma nextPow2_sixteen : nextPow2 16 = 16 := by
  unfold nextPow2
  rw [show (16 : ℕ) = 2 ^ 4 by norm_num, Nat.clog_pow 2 4 (by norm_num)]

lemma loaderRun_eval_c8 :
    loaderRun true [[0, 1]] 8 ⟨false, false, 0, [], 0⟩ 8 512 true (1/2) []
      false [] = some ⟨[[0, 1, 0, 0]], 0, 512, 4, [[0, 1]], 8, true⟩ := by
  have h4 : (4 : ℤ).toNat = 4 := rfl
  norm_num [loaderRun, loaderAcquire, resampleStage, silenceTrimStage,
    bufNumSamples, trimLenAux, silentAt, SILENCE_TRIM_THRESHOLD, normalizeStage,
    computeTargetIRLength, cTrunc, MAX_IR_LATENCY, trimChannel, fadeGain,
    List.range_succ, loaderMinPhaseStage, convertToMinimumPhaseCtl,
    nextPow2_sixteen, MAX_MINPHASE_FFT_SIZE, channelMagnitude,
    loaderLatencyStage, abs, h4]

/-- Counterexample for C8 as stated: a rebuild with minimum-phase mode
requested whose transform fails (empty FFT-core result) publishes the
linear-phase kernel `[[0,1,0,0]]` — whose maximum-magnitude sample sits
at index 1 (as the peak scan confirms) — yet records IR latency 0. -/
theorem latency_fallback_cex :
    loaderRun true [[0, 1]] 8 ⟨false, false, 0, [], 0⟩ 8 512 true (1/2) []
      false [] = some ⟨[[0, 1, 0, 0]], 0, 512, 4, [[0, 1]], 8, true⟩ ∧
    (peakScan [[0, 1, 0, 0]]).2 = 1 ∧ (0 : ℕ) ≠ 1 := by
  refine ⟨loaderRun_eval_c8, ?_, by omega⟩
  norm_num [peakScan, scanChannel, abs]

/-- Witness for C8: the argmax and delay-setting parts of the theorem at
a concrete two-sample kernel and convolver. -/
theorem linear_phase_latency_witness :
    (∃ ch ∈ [[(0 : ℚ), 1]], ch ≠ []) ∧
    (process ⟨true, false, some ⟨512, 1⟩, 4, 4⟩ (1/2) false (fun _ => 0)
        (fun _ _ => 0) (fun _ _ => 0) ⟨2, 2, fun _ _ => 0⟩).1 =
      some (min (512 + 1) MAX_TOTAL_DELAY) :=
  ⟨⟨[0, 1], by simp, by simp⟩,
   (linear_phase_latency_spec [[(0 : ℚ), 1]] ⟨[0, 1], by simp, by simp⟩
      ⟨true, false, some ⟨512, 1⟩, 4, 4⟩ ⟨512, 1⟩ rfl (1/2) false (fun _ => 0)
      (fun _ _ => 0) (fun _ _ => 0) ⟨2, 2, fun _ _ => 0⟩).2.1⟩

end ConvoPeq
